import Mathlib

/-!
Verification of `pycarddav/carddav.py` (the `PyCardDAV` CardDAV client).

The Python source is shallowly embedded below.  Conventions used throughout:

* Python string values that may also be `None` (lxml element texts, dict keys
  coming from `element.text`) are modelled as `Option String`; `none` is
  Python's `None`.
* A Python `dict` is modelled as the append-only list of its write operations
  (`dinsert`), with lookup returning the value of the last write for a key
  (`dlookup`), which is observationally the Python dict lookup.
* External collaborators are modelled from their documented behaviour, noted
  at each definition: the `requests` 0.x header dictionary returns `None` for
  an absent header; `lxml.etree.XML` raises `XMLSyntaxError` on malformed or
  empty input; `random.randint(a, b)` draws inclusively from `[a, b]`.
* `sys.exit(1)` and raised exceptions both become `Except.error`.
-/

/-- Python dict assignment `d[k] = v`, recorded as an appended write. -/
def dinsert {α β : Type} (d : List (α × β)) (k : α) (v : β) : List (α × β) :=
  d ++ [(k, v)]

/-- Python dict lookup: the value of the last write whose key equals `k`. -/
def dlookup {α β : Type} [BEq α] (d : List (α × β)) (k : α) : Option β :=
  (d.reverse.find? (fun x => x.1 == k)).map (fun x => x.2)

/-- Whether some write in `d` used key `k` (i.e. `k in d` in Python). -/
def hasKey {α β : Type} [BEq α] (d : List (α × β)) (k : α) : Bool :=
  d.any (fun x => x.1 == k)

/-- An lxml element: its (namespace-resolved, Clark notation) tag, its text
(`none` when the element has no text, as in lxml), and its child elements. -/
structure Elem where
  tag : String
  text : Option String
  children : List Elem
deriving Repr

/-- The string `"{DAV:}"` (`namespace` at carddav.py:233). -/
def davNs : String := "\x7bDAV:\x7d"

/-- The abstract result of `_process_xml_props`: a Python dict whose keys and
values are Python strings-or-None. -/
abbrev Abook : Type := List (Option String × Option String)

/-- State of the loop body of `_process_xml_props` while one `response`
element is processed: the Python locals `href`, `etag`, `insert` and the
accumulated dict `abook`. -/
structure PState where
  href : Option String
  etag : Option String
  insert : Bool
  abook : Abook

/-- Innermost loop body (carddav.py:246-252): one `props` grandchild updates
`insert` (on a vCard `getcontenttype`) and `etag` (on a `getetag`). -/
def procProps (st : PState) (q : Elem) : PState :=
  let st1 :=
    if q.tag == davNs ++ "getcontenttype"
        && (q.text == some "text/vcard" || q.text == some "text/x-vcard")
    then { st with insert := true } else st
  if q.tag == davNs ++ "getetag" then { st1 with etag := q.text } else st1

/-- Loop body over `prop` (carddav.py:245-254): walk the grandchildren, then
`if insert: abook[href] = etag`. -/
def procProp (st : PState) (p : Elem) : PState :=
  let st1 := p.children.foldl procProps st
  if st1.insert then { st1 with abook := dinsert st1.abook st1.href st1.etag }
  else st1

/-- Loop body over `refprop` (carddav.py:242-254): record the `href` text,
then process every child `prop`. -/
def procRefprop (st : PState) (rp : Elem) : PState :=
  let st1 := if rp.tag == davNs ++ "href" then { st with href := rp.text } else st
  rp.children.foldl procProp st1

/-- Loop body over the root's children (carddav.py:237-254): a `response`
element is processed with fresh locals `href = ""`, `etag = ""`,
`insert = False`; anything else is skipped. -/
def procResponse (ab : Abook) (r : Elem) : Abook :=
  if r.tag == davNs ++ "response" then
    (r.children.foldl procRefprop (PState.mk (some "") (some "") false ab)).abook
  else ab

/-- The dict-building part of `_process_xml_props` (carddav.py:236-255),
applied to the already-parsed tree. -/
def processTree (root : Elem) : Abook :=
  root.children.foldl procResponse []

/-- The filter condition at carddav.py:247-249: a `getcontenttype` property
in the `DAV:` namespace whose text is exactly `text/vcard` or
`text/x-vcard`. -/
def isQual (q : Elem) : Bool :=
  q.tag == davNs ++ "getcontenttype"
    && (q.text == some "text/vcard" || q.text == some "text/x-vcard")

/-- Whether one `prop` child of a `refprop` contains a qualifying property. -/
def propQual (p : Elem) : Bool := p.children.any isQual

/-- Whether one `refprop` child of a `response` contains a qualifying
property among its grandchildren. -/
def refpropQual (rp : Elem) : Bool := rp.children.any propQual

/-- A `response` element qualifies for insertion: some grandchild of a child
holds a qualifying vCard `getcontenttype` property. -/
def qualifiesB (r : Elem) : Bool :=
  r.children.any refpropQual

/-- The `getetag` update step on the Python local `etag`. -/
def etagStep (e : Option String) (q : Elem) : Option String :=
  if q.tag == davNs ++ "getetag" then q.text else e

/-- Value of `etag` after all grandchildren of one `prop` have been walked. -/
def etagProp (e : Option String) (p : Elem) : Option String :=
  p.children.foldl etagStep e

/-- Value of `etag` after one `refprop` has been walked. -/
def etagRefprop (e : Option String) (rp : Elem) : Option String :=
  rp.children.foldl etagProp e

/-- The final value of the Python local `etag` for a list of `refprop`
children: the text of the last `getetag` property, else `some ""`. -/
def lastEtag (l : List Elem) : Option String :=
  l.foldl etagRefprop (some "")

/-- Invariant of the `response` loop: whenever the `insert` flag is set, the
dict holds the current `etag` under the current `href` (the most recent
`abook[href] = etag` is still visible). -/
def PInv (st : PState) : Prop :=
  st.insert = true → dlookup st.abook st.href = some st.etag

/-- Example: an `href` element for `/a.vcf`. -/
def egHref : Elem := Elem.mk (davNs ++ "href") (some "/a.vcf") []

/-- Example: a qualifying vCard `getcontenttype` property. -/
def egCtVcard : Elem := Elem.mk (davNs ++ "getcontenttype") (some "text/vcard") []

/-- Example: an empty `getetag` element (`<D:getetag/>`), whose lxml text is
`None`. -/
def egEtagEmpty : Elem := Elem.mk (davNs ++ "getetag") none []

/-- Example: a `getetag` element with text `abc`. -/
def egEtagAbc : Elem := Elem.mk (davNs ++ "getetag") (some "abc") []

/-- Example response with an empty `getetag`: vCard content type, href
`/a.vcf`, `<getetag/>` with no text. -/
def egRespEmptyEtag : Elem :=
  Elem.mk (davNs ++ "response") none
    [egHref,
     Elem.mk (davNs ++ "propstat") none
       [Elem.mk (davNs ++ "prop") none [egCtVcard, egEtagEmpty]]]

/-- Example document wrapping `egRespEmptyEtag`. -/
def egRootEmptyEtag : Elem := Elem.mk (davNs ++ "multistatus") none [egRespEmptyEtag]

/-- Example response in standard shape with etag text `abc`. -/
def egPropstatAbc : Elem :=
  Elem.mk (davNs ++ "propstat") none
    [Elem.mk (davNs ++ "prop") none [egCtVcard, egEtagAbc]]

/-- Example response: href first, one propstat, etag `abc`. -/
def egRespAbc : Elem := Elem.mk (davNs ++ "response") none [egHref, egPropstatAbc]

/-- Example response with a qualifying content type but no `href` child. -/
def egRespNoHref : Elem :=
  Elem.mk (davNs ++ "response") none
    [Elem.mk (davNs ++ "propstat") none
       [Elem.mk (davNs ++ "prop") none [egCtVcard]]]

/-- Example document wrapping `egRespNoHref`. -/
def egRootNoHref : Elem := Elem.mk (davNs ++ "multistatus") none [egRespNoHref]

/-- XML whitespace. -/
def xmlSpace (c : Char) : Bool := c == ' ' || c == '\t' || c == '\n' || c == '\r'

/-- A character allowed to start an element name (restricted model). -/
def nameStart (c : Char) : Bool := c.isAlpha || c == '_'

/-- A character allowed inside an element name (restricted model). -/
def nameChar (c : Char) : Bool :=
  c.isAlphanum || c == '_' || c == '-' || c == '.' || c == ':'

/-- A character allowed in element text: anything except markup and entity
references. -/
def textChar (c : Char) : Bool := !(c == '<' || c == '&')

/-- lxml text of an element: `none` when no text precedes the first child. -/
def mkText (l : List Char) : Option String :=
  if l.isEmpty then none else some (String.mk l)

/-- Model of the recursive descent of `lxml.etree.XML`, restricted to the
attribute-free fragment exercised in this development: it parses a sequence
of sibling elements (stopping at a closing tag or at the end of input) and
returns `none` — an `XMLSyntaxError` — on anything else.  Not supported, and
therefore rejected rather than parsed: attributes (hence namespace
declarations), comments, processing instructions, CDATA, entity references,
and non-whitespace text after a closing tag.  The first argument is
recursion fuel; `xmlParse` supplies enough for any input. -/
def parseNodes : Nat → List Char → Option (List Elem × List Char)
  | 0, _ => none
  | _ + 1, [] => some ([], [])
  | _ + 1, '<' :: '/' :: rest => some ([], '<' :: '/' :: rest)
  | fuel + 1, '<' :: rest =>
    let s1 := rest.span nameChar
    if s1.1.isEmpty || !(nameStart (s1.1.headD 'a')) then none else
    match s1.2.dropWhile xmlSpace with
    | '/' :: '>' :: rest2 =>
      (match parseNodes fuel (rest2.dropWhile xmlSpace) with
       | none => none
       | some (sibs, r) => some (Elem.mk (String.mk s1.1) none [] :: sibs, r))
    | '>' :: rest2 =>
      let s2 := rest2.span textChar
      (match parseNodes fuel s2.2 with
       | none => none
       | some (kids, rest4) =>
         match rest4 with
         | '<' :: '/' :: rest5 =>
           let s3 := rest5.span nameChar
           (match s3.2.dropWhile xmlSpace with
            | '>' :: rest7 =>
              if s3.1 == s1.1 then
                (match parseNodes fuel (rest7.dropWhile xmlSpace) with
                 | none => none
                 | some (sibs, r) =>
                   some (Elem.mk (String.mk s1.1) (mkText s2.1) kids :: sibs, r))
              else none
            | _ => none)
         | _ => none)
    | _ => none
  | _ + 1, _ => none

/-- Model of `lxml.etree.XML` (carddav.py:235): the input must consist of
exactly one root element; otherwise — in particular for an empty document —
the parse fails (`XMLSyntaxError`, i.e. `none`). -/
def xmlParse (s : String) : Option Elem :=
  match parseNodes (s.length + 1) (s.data.dropWhile xmlSpace) with
  | some ([root], []) => some root
  | _ => none

/-- The error taxonomy of the listing path: the `sys.exit(1)` of
`_get_xml_props` (spec name `ProtocolMismatch`) and the `XMLSyntaxError`
escaping `_process_xml_props` (spec name `ParseError`). -/
inductive DavError
  | protocolMismatch
  | parseError
deriving Repr, DecidableEq

/-- The method `PyCardDAV._process_xml_props` (carddav.py:225-255): parse the body with
`ET.XML`, then build the href-to-etag dict. -/
def process_xml_props (xml : String) : Except DavError Abook :=
  match xmlParse xml with
  | none => Except.error DavError.parseError
  | some root => Except.ok (processTree root)

/-- Number of non-overlapping occurrences of `needle` in the hay, scanning
left to right — Python `str.count` for a non-empty needle.  The first
argument is recursion fuel, instantiated with the hay length by `strCount`. -/
def countOccAux (needle : List Char) : Nat → List Char → Nat
  | 0, _ => 0
  | _ + 1, [] => 0
  | fuel + 1, c :: cs =>
    if needle.isPrefixOf (c :: cs) then
      1 + countOccAux needle fuel (List.drop (needle.length - 1) cs)
    else countOccAux needle fuel cs

/-- Python `hay.count(needle)` for a non-empty needle. -/
def strCount (hay needle : String) : Nat :=
  countOccAux needle.data hay.data.length hay.data

/-- The PROPFIND response as `_get_xml_props` observes it: the `DAV` response
header and the body.  In the requests 0.x versions pycarddav targets,
`response.headers['DAV']` is `None` when the header is absent (the
case-insensitive dict's `__getitem__` has no else branch), so the header is
an `Option String`. -/
structure ListingResponse where
  dav : Option String
  body : String

/-- The method `PyCardDAV._get_xml_props` (carddav.py:203-223) after the PROPFIND has
returned `resp`: if the `DAV` header does not contain `addressbook` the
client exits via `sys.exit(1)` (absent header: `None.count` raises
`AttributeError`, caught at carddav.py:220, also `sys.exit(1)`); both exits
are the spec's `ProtocolMismatch`.  Otherwise the body is returned. -/
def get_xml_props (resp : ListingResponse) : Except DavError String :=
  match resp.dav with
  | none => Except.error DavError.protocolMismatch
  | some s =>
    if strCount s "addressbook" = 0 then Except.error DavError.protocolMismatch
    else Except.ok resp.body

/-- The method `PyCardDAV.get_abook` (carddav.py:110-117): `_get_xml_props` then
`_process_xml_props`. -/
def get_abook (resp : ListingResponse) : Except DavError Abook :=
  match get_xml_props resp with
  | Except.error e => Except.error e
  | Except.ok body => process_xml_props body

/-- An outgoing HTTP request as the client assembles it: target URL, the
header dict, and the body (`none` for DELETE, which sends no body). -/
structure Req where
  url : String
  headers : List (String × String)
  body : Option String
deriving Repr, DecidableEq

/-- A server response as the client observes it: `response.ok`,
`response.reason`, `response.content`, and `response.headers['etag']`
(`None`, i.e. `none`, when the header is absent — requests 0.x semantics). -/
structure HttpResp where
  ok : Bool
  reason : String
  content : String
  etag : Option String
deriving Repr, DecidableEq

/-- The property `self.headers` (carddav.py:81-83): a copy of the default header dict. -/
def defaultHeaders : List (String × String) := [("User-Agent", "pyCardDAV")]

/-- The header dict built by `update_vcard`/`delete_vcard`
(carddav.py:141-144, 162-165): content-type always, `If-Match` exactly when
the caller supplied an etag. -/
def conditionalHeaders (etag : Option String) : List (String × String) :=
  let h := dinsert defaultHeaders "content-type" "text/vcard"
  match etag with
  | some e => dinsert h "If-Match" e
  | none => h

/-- The PUT request `update_vcard` sends (carddav.py:140-146). -/
def update_request (base vref card : String) (etag : Option String) : Req :=
  Req.mk (base ++ vref) (conditionalHeaders etag) (some card)

/-- The method `PyCardDAV.update_vcard` (carddav.py:131-146).  `ws` is the
`write_support` flag (`_check_write_support` exits when it is unset).  The
Python method returns `None` and ignores `self.session.put`'s response
entirely; as its observable trace the model returns the request it issued. -/
def update_vcard (ws : Bool) (base vref card : String) (etag : Option String)
    (srv : Req → HttpResp) : Except String Req :=
  if ws = false then Except.error "no write support"
  else
    let req := update_request base vref card etag
    let _resp := srv req
    Except.ok req

/-- The DELETE request `delete_vcard` sends (carddav.py:161-168). -/
def delete_request (base vref : String) (etag : Option String) : Req :=
  Req.mk (base ++ vref) (conditionalHeaders etag) none

/-- The method `PyCardDAV.delete_vcard` (carddav.py:148-171): issue the DELETE; when
`result.ok` is false, raise `Exception(result.reason, result.content)`.  On
success the Python method returns `None`; the model returns the issued
request as its observable trace. -/
def delete_vcard (ws : Bool) (base vref : String) (etag : Option String)
    (srv : Req → HttpResp) : Except (String × String) Req :=
  if ws = false then Except.error ("no write support", "")
  else
    let req := delete_request base vref etag
    let result := srv req
    if result.ok then Except.ok req
    else Except.error (result.reason, result.content)

/-- One hexadecimal digit rendered in lowercase — exactly what each position
of Python's `"{0:x}".format` produces (`Nat.digitChar` maps 10-15 to
`'a'`-`'f'`). -/
def hexCore : Nat → Nat → List Char
  | 0, _ => []
  | fuel + 1, n =>
    if n < 16 then [Nat.digitChar n]
    else hexCore fuel (n / 16) ++ [Nat.digitChar (n % 16)]

/-- Python `"{0:x}".format(n)`: unpadded lowercase hexadecimal. -/
def hexLower (n : Nat) : String := String.mk (hexCore (n + 1) n)

/-- Python `str.upper()` restricted to ASCII content. -/
def strUpper (s : String) : String := String.mk (s.data.map Char.toUpper)

/-- The inclusive upper bound `0x100000000` passed to `random.randint`
(carddav.py:27).  Python's `randint(a, b)` includes both endpoints, so the
draw ranges over `[0, 2^32]` — 2^32 + 1 values. -/
def randintUpper : Nat := 4294967296

/-- The function `get_random_href` (carddav.py:22-29) with the three `random.randint`
draws supplied as a stream: render each draw as unpadded lowercase hex, join
with `"-"`, uppercase the result. -/
def get_random_href (draws : Nat → Nat) : String :=
  strUpper (hexLower (draws 0) ++ "-" ++ hexLower (draws 1) ++ "-" ++ hexLower (draws 2))

/-- Scan for the first `"://"` in a URL. -/
def afterSchemeMark : List Char → Option (List Char)
  | ':' :: '/' :: '/' :: rest => some rest
  | _ :: cs => afterSchemeMark cs
  | [] => none

/-- Drop the netloc: everything up to (but not including) the first `'/'`. -/
def dropNetloc : List Char → List Char
  | [] => []
  | c :: cs => if c = '/' then c :: cs else dropNetloc cs

/-- Model of `urlparse.urlparse(s).path` for the query- and fragment-free
URLs this client builds: the part of `s` from the first `'/'` after the
first `"://"`. -/
def urlparsePath (s : String) : String :=
  match afterSchemeMark s.data with
  | some rest => String.mk (dropNetloc rest)
  | none => s

/-- The header dict built by `upload_new_card` for every attempt
(carddav.py:186-188): content-type plus the `If-None-Match: *`
create-only-if-absent precondition. -/
def uploadHeaders : List (String × String) :=
  dinsert (dinsert defaultHeaders "content-type" "text/vcard") "If-None-Match" "*"

/-- The PUT request of one `upload_new_card` attempt (carddav.py:184-190):
target `<resource>/<candidate>.vcf`. -/
def upload_request (resource card cand : String) : Req :=
  Req.mk (resource ++ "/" ++ cand ++ ".vcf") uploadHeaders (some card)

/-- carddav.py:194-197: the etag returned on success is
`response.headers['etag']`, coerced to `''` when that is `None`. -/
def etagOrEmpty (h : Option String) : String :=
  match h with
  | none => ""
  | some e => e

/-- The `for _ in range(0, 5)` loop of `upload_new_card` (carddav.py:183-200)
over the remaining attempt indices; `last` is the `response` local (used by
the final `raise UploadFailed(response.reason)` after the loop).  `gen i` is
the candidate `get_random_href()` returns on attempt `i`. -/
def uploadGo (resource card : String) (gen : Nat → String) (srv : Req → HttpResp) :
    List Nat → HttpResp → Except String (String × String)
  | [], last => Except.error last.reason
  | i :: rest, _ =>
    let req := upload_request resource card (gen i)
    let resp := srv req
    if resp.ok then Except.ok (urlparsePath req.url, etagOrEmpty resp.etag)
    else uploadGo resource card gen srv rest resp

/-- The method `PyCardDAV.upload_new_card` (carddav.py:173-201).  The initial `last`
response is a dummy: the attempt list is non-empty so it is overwritten
before it can be raised. -/
def upload_new_card (ws : Bool) (resource card : String) (gen : Nat → String)
    (srv : Req → HttpResp) : Except String (String × String) :=
  if ws = false then Except.error "no write support"
  else uploadGo resource card gen srv [0, 1, 2, 3, 4] (HttpResp.mk false "" "" none)

/-- The response `update_vcard` receives is bound and discarded; the result
of the call is therefore literally independent of it. -/
theorem update_vcard_resp_independent (ws : Bool) (base vref card : String)
    (etag : Option String) (srv1 srv2 : Req → HttpResp) :
    update_vcard ws base vref card etag srv1 = update_vcard ws base vref card etag srv2 := rfl

/-- C2: For every Update and every Delete call, the outgoing request carries
an `If-Match` header whose value is exactly the caller's concurrency marker
when one is supplied, and carries no `If-Match` header when the caller
passes `None` — equivalently, looking up `If-Match` in the request's header
dict yields exactly the caller's `etag` argument. -/
theorem claim_c2 (base vref card : String) (etag : Option String) :
    dlookup (update_request base vref card etag).headers "If-Match" = etag
    ∧ dlookup (delete_request base vref etag).headers "If-Match" = etag := by
  cases etag <;> exact ⟨rfl, rfl⟩

/-- C3: When the PROPFIND response's `DAV` header is absent, or present but
without the substring `addressbook`, both `_get_xml_props` and the whole
`get_abook` call fail with `ProtocolMismatch` — for any body whatsoever, so
no XML parsing is attempted and no snapshot is produced. -/
theorem claim_c3 (resp : ListingResponse)
    (h : ∀ s, resp.dav = some s → strCount s "addressbook" = 0) :
    get_abook resp = Except.error DavError.protocolMismatch
    ∧ get_xml_props resp = Except.error DavError.protocolMismatch := by
  cases hd : resp.dav with
  | none =>
    constructor
    · simp [get_abook, get_xml_props, hd]
    · simp [get_xml_props, hd]
  | some s =>
    have hc := h s hd
    constructor
    · simp [get_abook, get_xml_props, hd, hc]
    · simp [get_xml_props, hd, hc]

/-- Witness for C3: a header advertising only calendar support, together
with a malformed body, yields `ProtocolMismatch` (not `ParseError`). -/
theorem claim_c3_witness :
    get_abook (ListingResponse.mk (some "calendar-access") "<bad")
      = Except.error DavError.protocolMismatch
    ∧ get_xml_props (ListingResponse.mk (some "calendar-access") "<bad")
      = Except.error DavError.protocolMismatch :=
  claim_c3 (ListingResponse.mk (some "calendar-access") "<bad")
    (by intro s hs; cases hs; decide)

/-- C6 counterexample: a rejected conditional update (412, not ok) and an
accepted one produce the identical call-site outcome, and the rejected call
still reports success — the response is discarded at carddav.py:145-146. -/
theorem claim_c6_counterexample :
    update_vcard true "https://h" "/a.vcf" "CARD" (some "etag1")
        (fun _ => HttpResp.mk false "412 Precondition Failed" "" none)
      = update_vcard true "https://h" "/a.vcf" "CARD" (some "etag1")
          (fun _ => HttpResp.mk true "Created" "" none)
    ∧ (update_vcard true "https://h" "/a.vcf" "CARD" (some "etag1")
        (fun _ => HttpResp.mk false "412 Precondition Failed" "" none)).isOk = true :=
  ⟨rfl, rfl⟩

/-- C6 amended: `update_vcard` ignores the server's response, so a rejected
Update is not surfaced and is indistinguishable at the call site from a
successful one: the call's result is the same for every pair of server
behaviours. -/
theorem claim_c6 (ws : Bool) (base vref card : String) (etag : Option String)
    (srv1 srv2 : Req → HttpResp) :
    update_vcard ws base vref card etag srv1 = update_vcard ws base vref card etag srv2 ∧
    (ws = true → (update_vcard ws base vref card etag srv1).isOk = true) := by
  constructor
  · exact rfl
  · intro hw; cases hw; exact rfl

/-- Witness for C6 amended: concrete rejecting and accepting servers give
the same outcome, and the rejecting call reports ok. -/
theorem claim_c6_witness :
    update_vcard true "https://x" "/b.vcf" "C" none
        (fun _ => HttpResp.mk false "403 Forbidden" "" none)
      = update_vcard true "https://x" "/b.vcf" "C" none
          (fun _ => HttpResp.mk true "OK" "" none)
    ∧ (update_vcard true "https://x" "/b.vcf" "C" none
        (fun _ => HttpResp.mk false "403 Forbidden" "" none)).isOk = true :=
  ⟨(claim_c6 true "https://x" "/b.vcf" "C" none
      (fun _ => HttpResp.mk false "403 Forbidden" "" none)
      (fun _ => HttpResp.mk true "OK" "" none)).1,
   (claim_c6 true "https://x" "/b.vcf" "C" none
      (fun _ => HttpResp.mk false "403 Forbidden" "" none)
      (fun _ => HttpResp.mk true "OK" "" none)).2 rfl⟩

/-- C8 counterexample: parsing an empty listing body does not yield an empty
mapping — `ET.XML('')` raises `XMLSyntaxError` ("Document is empty"), so
`_process_xml_props` fails with `ParseError`. -/
theorem claim_c8_counterexample :
    process_xml_props "" = Except.error DavError.parseError
    ∧ process_xml_props "" ≠ Except.ok ([] : Abook) :=
  ⟨rfl, fun h => Except.noConfusion h⟩

/-- C8 amended: an empty (zero-length or absent) body is itself malformed
XML and fails with `ParseError`, exactly like any other malformed body; an
empty mapping is produced only by a well-formed document containing no
qualifying `response` element. -/
theorem claim_c8 :
    process_xml_props "" = Except.error DavError.parseError
    ∧ process_xml_props "<foo" = Except.error DavError.parseError
    ∧ process_xml_props "<abc></abc>" = Except.ok ([] : Abook) :=
  ⟨rfl, rfl, rfl⟩

/-- Rendering a number below `16 ^ (k + 1)` takes at most `k + 1` hex digits. -/
theorem hexCore_length_le : ∀ (k fuel n : Nat), n < 16 ^ (k + 1) →
    (hexCore fuel n).length ≤ k + 1 := by
  intro k
  induction k with
  | zero =>
    intro fuel n hn
    cases fuel with
    | zero => simp [hexCore]
    | succ f =>
      have h16 : n < 16 := by simpa using hn
      simp [hexCore, h16]
  | succ k ih =>
    intro fuel n hn
    cases fuel with
    | zero => simp [hexCore]
    | succ f =>
      by_cases h16 : n < 16
      · simp [hexCore, h16]
      · have hdiv : n / 16 < 16 ^ (k + 1) := by
          rw [Nat.div_lt_iff_lt_mul (by norm_num : 0 < 16)]
          calc n < 16 ^ (k + 1 + 1) := hn
            _ = 16 ^ (k + 1) * 16 := by ring
        have := ih f (n / 16) hdiv
        simp only [hexCore, h16, if_false]
        simp [List.length_append]
        omega

/-- Rendering always produces at least one digit (with positive fuel). -/
theorem hexCore_length_pos : ∀ (fuel n : Nat), 0 < fuel →
    1 ≤ (hexCore fuel n).length := by
  intro fuel n hf
  cases fuel with
  | zero => omega
  | succ f =>
    by_cases h16 : n < 16
    · simp [hexCore, h16]
    · simp [hexCore, h16, List.length_append]

/-- Hex rendering of a `randint(0, 0x100000000)` draw: 1 to 9 characters. -/
theorem hexLower_length (n : Nat) (h : n ≤ randintUpper) :
    1 ≤ (hexLower n).length ∧ (hexLower n).length ≤ 9 := by
  have hlt : n < 16 ^ (8 + 1) := by
    have : randintUpper < 16 ^ 9 := by norm_num [randintUpper]
    omega
  constructor
  · exact hexCore_length_pos (n + 1) n (Nat.succ_pos n)
  · exact hexCore_length_le 8 (n + 1) n hlt

/-- Uppercasing does not change the length. -/
theorem strUpper_length (s : String) : (strUpper s).length = s.length := by
  show (s.data.map Char.toUpper).length = s.data.length
  exact List.length_map s.data Char.toUpper

/-- Length of a string concatenation. -/
theorem strLength_append (s t : String) : (s ++ t).length = s.length + t.length := by
  cases s with
  | mk a =>
    cases t with
    | mk b =>
      show (a ++ b).length = a.length + b.length
      exact List.length_append a b

set_option maxRecDepth 4000 in
/-- C9 counterexample: all three draws being `0` is a possible outcome of
`random.randint(0, 0x100000000)`, and it produces the token `"0-0-0"` of
length 5, not 35 — `"{0:x}"` does not zero-pad. -/
theorem claim_c9_counterexample :
    (0 ≤ randintUpper)
    ∧ get_random_href (fun _ => 0) = "0-0-0"
    ∧ (get_random_href (fun _ => 0)).length ≠ 35 := by
  have h5 : (get_random_href (fun _ => 0)).length = 5 := rfl
  exact ⟨Nat.zero_le _, rfl, by omega⟩

/-- C9 amended: each identifier is the concatenation of three independently
drawn random values from the inclusive range `[0, 2^32]` (so a draw can
exceed the largest unsigned 32-bit value), each rendered as unpadded
lowercase hexadecimal, joined by hyphens and upper-cased; its length is
between 5 and 29 characters, never 35. -/
theorem claim_c9 (draws : Nat → Nat) (h : ∀ i, draws i ≤ randintUpper) :
    get_random_href draws
      = strUpper (hexLower (draws 0) ++ "-" ++ hexLower (draws 1) ++ "-" ++ hexLower (draws 2))
    ∧ 5 ≤ (get_random_href draws).length
    ∧ (get_random_href draws).length ≤ 29
    ∧ (get_random_href draws).length ≠ 35 := by
  have h0 := hexLower_length (draws 0) (h 0)
  have h1 := hexLower_length (draws 1) (h 1)
  have h2 := hexLower_length (draws 2) (h 2)
  have hone : ("-" : String).length = 1 := rfl
  have hlen : (get_random_href draws).length
      = (hexLower (draws 0)).length + (hexLower (draws 1)).length
        + (hexLower (draws 2)).length + 2 := by
    simp only [get_random_href, strUpper_length, strLength_append, hone]
    omega
  refine ⟨rfl, ?_, ?_, ?_⟩ <;> omega

/-- Witness for C9 amended: the largest possible draws give a 29-character
token. -/
theorem claim_c9_witness :
    ((4294967296 : Nat) ≤ randintUpper)
    ∧ 5 ≤ (get_random_href (fun _ => 4294967296)).length
    ∧ (get_random_href (fun _ => 4294967296)).length ≤ 29
    ∧ (get_random_href (fun _ => 4294967296)).length ≠ 35 :=
  ⟨by decide, (claim_c9 (fun _ => 4294967296) (fun _ => Nat.le.refl)).2⟩

/-- The URL of one upload attempt, unfolded. -/
theorem upload_request_url (resource card cand : String) :
    (upload_request resource card cand).url = resource ++ "/" ++ cand ++ ".vcf" := rfl

/-- C4: Create makes at most 5 attempts: every attempt `i` targets
`<collection>/<candidate_i>.vcf` with the freshly generated candidate
`gen i` and the `If-None-Match: *` precondition; the loop continues only
while the server rejects, and when all 5 attempts are rejected the call
raises `UploadFailed` carrying the last (5th) response's reason. -/
theorem claim_c4 (resource card : String) (gen : Nat → String) (srv : Req → HttpResp) :
    (∀ i, dlookup (upload_request resource card (gen i)).headers "If-None-Match" = some "*"
      ∧ (upload_request resource card (gen i)).url = resource ++ "/" ++ gen i ++ ".vcf")
    ∧ ((∀ i, i < 5 → (srv (upload_request resource card (gen i))).ok = false) →
        upload_new_card true resource card gen srv
          = Except.error (srv (upload_request resource card (gen 4))).reason)
    ∧ (∀ j, j < 5 → (srv (upload_request resource card (gen j))).ok = true →
        (∀ i, i < j → (srv (upload_request resource card (gen i))).ok = false) →
        (upload_new_card true resource card gen srv).isOk = true) := by
  refine ⟨fun i => ⟨rfl, rfl⟩, ?_, ?_⟩
  · intro h
    have h0 := h 0 (by omega)
    have h1 := h 1 (by omega)
    have h2 := h 2 (by omega)
    have h3 := h 3 (by omega)
    have h4 := h 4 (by omega)
    simp [upload_new_card, uploadGo, h0, h1, h2, h3, h4]
  · intro j hj hok hprev
    interval_cases j
    · simp [upload_new_card, uploadGo, hok, Except.isOk, Except.toBool]
    · have h0 := hprev 0 (by omega)
      simp [upload_new_card, uploadGo, h0, hok, Except.isOk, Except.toBool]
    · have h0 := hprev 0 (by omega)
      have h1 := hprev 1 (by omega)
      simp [upload_new_card, uploadGo, h0, h1, hok, Except.isOk, Except.toBool]
    · have h0 := hprev 0 (by omega)
      have h1 := hprev 1 (by omega)
      have h2 := hprev 2 (by omega)
      simp [upload_new_card, uploadGo, h0, h1, h2, hok, Except.isOk, Except.toBool]
    · have h0 := hprev 0 (by omega)
      have h1 := hprev 1 (by omega)
      have h2 := hprev 2 (by omega)
      have h3 := hprev 3 (by omega)
      simp [upload_new_card, uploadGo, h0, h1, h2, h3, hok, Except.isOk, Except.toBool]

/-- Witness for C4: a server that always rejects with reason
`412 Precondition Failed` drives Create into `UploadFailed` with exactly
that reason. -/
theorem claim_c4_witness :
    upload_new_card true "https://h/ab" "C" (fun _ => "G")
        (fun _ => HttpResp.mk false "412 Precondition Failed" "" none)
      = Except.error "412 Precondition Failed" :=
  (claim_c4 "https://h/ab" "C" (fun _ => "G")
      (fun _ => HttpResp.mk false "412 Precondition Failed" "" none)).2.1
    (fun _ _ => rfl)

/-- C5: when the server accepts attempt `j` (all earlier attempts having
been rejected), Create returns the pair of the server-relative path of the
new resource (the `urlparse(...).path` of the attempted URL) and the
response's etag header, coerced to the empty string when the header is
absent; in the absent case the call still succeeds with marker `""`. -/
theorem claim_c5 (resource card : String) (gen : Nat → String) (srv : Req → HttpResp)
    (j : Nat) (hj : j < 5)
    (hprev : ∀ i, i < j → (srv (upload_request resource card (gen i))).ok = false)
    (hok : (srv (upload_request resource card (gen j))).ok = true) :
    upload_new_card true resource card gen srv
      = Except.ok (urlparsePath (resource ++ "/" ++ gen j ++ ".vcf"),
          etagOrEmpty (srv (upload_request resource card (gen j))).etag)
    ∧ ((srv (upload_request resource card (gen j))).etag = none →
        upload_new_card true resource card gen srv
          = Except.ok (urlparsePath (resource ++ "/" ++ gen j ++ ".vcf"), "")) := by
  have hmain : upload_new_card true resource card gen srv
      = Except.ok (urlparsePath (resource ++ "/" ++ gen j ++ ".vcf"),
          etagOrEmpty (srv (upload_request resource card (gen j))).etag) := by
    interval_cases j
    · simp [upload_new_card, uploadGo, hok, upload_request_url]
    · have h0 := hprev 0 (by omega)
      simp [upload_new_card, uploadGo, h0, hok, upload_request_url]
    · have h0 := hprev 0 (by omega)
      have h1 := hprev 1 (by omega)
      simp [upload_new_card, uploadGo, h0, h1, hok, upload_request_url]
    · have h0 := hprev 0 (by omega)
      have h1 := hprev 1 (by omega)
      have h2 := hprev 2 (by omega)
      simp [upload_new_card, uploadGo, h0, h1, h2, hok, upload_request_url]
    · have h0 := hprev 0 (by omega)
      have h1 := hprev 1 (by omega)
      have h2 := hprev 2 (by omega)
      have h3 := hprev 3 (by omega)
      simp [upload_new_card, uploadGo, h0, h1, h2, h3, hok, upload_request_url]
  refine ⟨hmain, ?_⟩
  intro hnone
  rw [hmain, hnone]
  rfl

/-- Witness for C5: a first-attempt acceptance whose response carries no
etag header yields the resolved path and the empty-string marker. -/
theorem claim_c5_witness :
    upload_new_card true "https://h/ab" "C" (fun _ => "G")
        (fun _ => HttpResp.mk true "Created" "" none)
      = Except.ok ("/ab/G.vcf", "") :=
  (claim_c5 "https://h/ab" "C" (fun _ => "G")
      (fun _ => HttpResp.mk true "Created" "" none) 0 (by omega)
      (fun i hi => absurd hi (Nat.not_lt_zero i)) rfl).2 rfl

/-- A freshly appended write is what lookup returns for its key. -/
theorem dlookup_dinsert_self {α β : Type} [BEq α] [LawfulBEq α]
    (d : List (α × β)) (k : α) (v : β) :
    dlookup (dinsert d k v) k = some v := by
  simp [dlookup, dinsert, List.find?]

/-- One `props` step in full: `href` and `abook` untouched, `etag` follows
`etagStep`, `insert` is sticky and set by a qualifying property. -/
theorem procProps_spec (st : PState) (q : Elem) :
    procProps st q
      = PState.mk st.href (etagStep st.etag q) (st.insert || isQual q) st.abook := by
  simp only [procProps, etagStep, isQual]
  cases hc1 : (q.tag == davNs ++ "getcontenttype"
      && (q.text == some "text/vcard" || q.text == some "text/x-vcard")) <;>
    cases hc2 : (q.tag == davNs ++ "getetag") <;> simp [hc1, hc2]

/-- The inner `props` loop in full. -/
theorem propsFold_spec (l : List Elem) : ∀ (st : PState),
    List.foldl procProps st l
      = PState.mk st.href (List.foldl etagStep st.etag l) (st.insert || l.any isQual)
          st.abook := by
  induction l with
  | nil => intro st; simp
  | cons q l ih =>
    intro st
    simp only [List.foldl_cons, List.any_cons]
    rw [procProps_spec, ih]
    simp [Bool.or_assoc]

/-- One `prop` step in full: the grandchildren are walked, then the state is
written to the dict exactly when the (sticky) `insert` flag is set. -/
theorem procProp_spec (st : PState) (p : Elem) :
    procProp st p
      = if (st.insert || propQual p) = true
        then PState.mk st.href (etagProp st.etag p) true
               (dinsert st.abook st.href (etagProp st.etag p))
        else PState.mk st.href (etagProp st.etag p) false st.abook := by
  simp only [procProp, propsFold_spec, etagProp, propQual]
  split <;> simp_all

theorem procProp_href (st : PState) (p : Elem) : (procProp st p).href = st.href := by
  rw [procProp_spec]; split <;> rfl

theorem procProp_etag (st : PState) (p : Elem) :
    (procProp st p).etag = etagProp st.etag p := by
  rw [procProp_spec]; split <;> rfl

theorem procProp_insert (st : PState) (p : Elem) :
    (procProp st p).insert = (st.insert || propQual p) := by
  rw [procProp_spec]; split <;> simp_all

theorem procProp_abook (st : PState) (p : Elem) :
    (procProp st p).abook
      = if (st.insert || propQual p) = true
        then dinsert st.abook st.href (etagProp st.etag p) else st.abook := by
  rw [procProp_spec]; split <;> simp_all

/-- The writes a `prop` step appends all use the current `href` as key. -/
theorem procProp_abook_suffix (st : PState) (p : Elem) :
    ∃ t, (procProp st p).abook = st.abook ++ t ∧ ∀ x ∈ t, x.1 = st.href := by
  rw [procProp_abook]
  split
  · exact ⟨[(st.href, etagProp st.etag p)], rfl, by simp⟩
  · exact ⟨[], by simp, by simp⟩

/-- After a `prop` step the invariant holds outright: if the flag is up, the
step has just re-written `abook[href] = etag`. -/
theorem procProp_PInv (st : PState) (p : Elem) : PInv (procProp st p) := by
  intro hins
  rw [procProp_spec] at hins ⊢
  by_cases h : (st.insert || propQual p) = true
  · simp only [h, if_true]
    exact dlookup_dinsert_self st.abook st.href (etagProp st.etag p)
  · simp only [h, if_false] at hins
    exact absurd hins (by simp)

theorem propFold_href (l : List Elem) : ∀ (st : PState),
    (List.foldl procProp st l).href = st.href := by
  induction l with
  | nil => intro st; rfl
  | cons p l ih => intro st; rw [List.foldl_cons, ih, procProp_href]

theorem propFold_etag (l : List Elem) : ∀ (st : PState),
    (List.foldl procProp st l).etag = List.foldl etagProp st.etag l := by
  induction l with
  | nil => intro st; rfl
  | cons p l ih => intro st; rw [List.foldl_cons, ih, procProp_etag, List.foldl_cons]

theorem propFold_insert (l : List Elem) : ∀ (st : PState),
    (List.foldl procProp st l).insert = (st.insert || l.any propQual) := by
  induction l with
  | nil => intro st; simp
  | cons p l ih =>
    intro st
    rw [List.foldl_cons, ih, procProp_insert, List.any_cons]
    simp [Bool.or_assoc]

theorem propFold_abook_suffix (l : List Elem) : ∀ (st : PState),
    ∃ t, (List.foldl procProp st l).abook = st.abook ++ t ∧ ∀ x ∈ t, x.1 = st.href := by
  induction l with
  | nil => intro st; exact ⟨[], by simp, by simp⟩
  | cons p l ih =>
    intro st
    obtain ⟨t1, ht1, hk1⟩ := procProp_abook_suffix st p
    obtain ⟨t2, ht2, hk2⟩ := ih (procProp st p)
    refine ⟨t1 ++ t2, ?_, ?_⟩
    · rw [List.foldl_cons, ht2, ht1, List.append_assoc]
    · intro x hx
      rcases List.mem_append.mp hx with hx1 | hx2
      · exact hk1 x hx1
      · rw [hk2 x hx2, procProp_href]

theorem propFold_abook_mono (l : List Elem) : ∀ (st : PState),
    st.abook.length ≤ (List.foldl procProp st l).abook.length := by
  intro st
  obtain ⟨t, ht, _⟩ := propFold_abook_suffix l st
  rw [ht, List.length_append]
  omega

/-- The inner prop loop grows the dict exactly when the flag was already up
and there is at least one `prop` element, or some `prop` qualifies. -/
theorem propFold_abook_grow (l : List Elem) : ∀ (st : PState),
    st.abook.length < (List.foldl procProp st l).abook.length
      ↔ ((st.insert = true ∧ l ≠ []) ∨ l.any propQual = true) := by
  induction l with
  | nil => intro st; simp
  | cons p l ih =>
    intro st
    have hstep : (procProp st p).abook.length
        = st.abook.length + (if (st.insert || propQual p) = true then 1 else 0) := by
      rw [procProp_abook]
      split <;> simp [dinsert]
    have hmono := propFold_abook_mono l (procProp st p)
    have hins : (procProp st p).insert = (st.insert || propQual p) := procProp_insert st p
    constructor
    · intro hlt
      rw [List.foldl_cons] at hlt
      by_cases hb : (st.insert || propQual p) = true
      · rcases Bool.or_eq_true_iff.mp hb with h | h
        · exact Or.inl ⟨h, by simp⟩
        · exact Or.inr (by simp [List.any_cons, h])
      · have hb0 : (procProp st p).abook.length = st.abook.length := by
          rw [hstep, if_neg hb]
          omega
        have := (ih (procProp st p)).mp (by omega)
        rcases this with ⟨h1, _⟩ | h2
        · rw [hins] at h1; exact absurd h1 hb
        · exact Or.inr (by simp [List.any_cons, h2])
    · intro h
      rw [List.foldl_cons]
      by_cases hb : (st.insert || propQual p) = true
      · have : (procProp st p).abook.length = st.abook.length + 1 := by
          rw [hstep, if_pos hb]
        omega
      · have hb0 : (procProp st p).abook.length = st.abook.length := by
          rw [hstep, if_neg hb]
          omega
        have hqp : propQual p = false := by
          rcases Bool.or_eq_false_iff.mp (Bool.not_eq_true _ |>.mp hb) with ⟨_, h2⟩
          exact h2
        have hsi : st.insert = false := by
          rcases Bool.or_eq_false_iff.mp (Bool.not_eq_true _ |>.mp hb) with ⟨h1, _⟩
          exact h1
        have htail : ((procProp st p).insert = true ∧ l ≠ []) ∨ l.any propQual = true := by
          rcases h with ⟨h1, _⟩ | h2
          · rw [h1] at hsi; exact absurd hsi (by simp)
          · rw [List.any_cons, hqp] at h2
            simp only [Bool.false_or] at h2
            exact Or.inr h2
        have := (ih (procProp st p)).mpr htail
        omega

theorem propFold_PInv (l : List Elem) : ∀ (st : PState),
    PInv st → PInv (List.foldl procProp st l) := by
  induction l with
  | nil => intro st h; exact h
  | cons p l ih => intro st _; exact ih (procProp st p) (procProp_PInv st p)

theorem procRefprop_href (st : PState) (rp : Elem) :
    (procRefprop st rp).href
      = (if (rp.tag == davNs ++ "href") = true then rp.text else st.href) := by
  simp only [procRefprop]
  split <;> simp [propFold_href]

theorem procRefprop_etag (st : PState) (rp : Elem) :
    (procRefprop st rp).etag = etagRefprop st.etag rp := by
  simp only [procRefprop, etagRefprop]
  split <;> simp [propFold_etag]

theorem procRefprop_insert (st : PState) (rp : Elem) :
    (procRefprop st rp).insert = (st.insert || refpropQual rp) := by
  simp only [procRefprop, refpropQual]
  split <;> simp [propFold_insert]

theorem procRefprop_abook_suffix (st : PState) (rp : Elem) :
    ∃ t, (procRefprop st rp).abook = st.abook ++ t := by
  simp only [procRefprop]
  split
  · obtain ⟨t, ht, _⟩ := propFold_abook_suffix rp.children (PState.mk rp.text st.etag st.insert st.abook)
    exact ⟨t, ht⟩
  · obtain ⟨t, ht, _⟩ := propFold_abook_suffix rp.children st
    exact ⟨t, ht⟩

theorem procRefprop_abook_suffix_keys (st : PState) (rp : Elem)
    (hnh : (rp.tag == davNs ++ "href") = false) :
    ∃ t, (procRefprop st rp).abook = st.abook ++ t ∧ ∀ x ∈ t, x.1 = st.href := by
  simp only [procRefprop, hnh]
  simp only [Bool.false_eq_true, if_false]
  exact propFold_abook_suffix rp.children st

theorem procRefprop_abook_grow (st : PState) (rp : Elem) :
    st.abook.length < (procRefprop st rp).abook.length
      ↔ ((st.insert = true ∧ rp.children ≠ []) ∨ refpropQual rp = true) := by
  simp only [procRefprop, refpropQual]
  split
  · exact propFold_abook_grow rp.children (PState.mk rp.text st.etag st.insert st.abook)
  · exact propFold_abook_grow rp.children st

theorem procRefprop_PInv (st : PState) (rp : Elem)
    (hnh : (rp.tag == davNs ++ "href") = false) (h : PInv st) :
    PInv (procRefprop st rp) := by
  simp only [procRefprop, hnh]
  simp only [Bool.false_eq_true, if_false]
  exact propFold_PInv rp.children st h

theorem respFold_href (l : List Elem) : ∀ (st : PState),
    (∀ rp ∈ l, (rp.tag == davNs ++ "href") = false) →
    (List.foldl procRefprop st l).href = st.href := by
  induction l with
  | nil => intro st _; rfl
  | cons rp l ih =>
    intro st hnh
    rw [List.foldl_cons, ih (procRefprop st rp) (fun x hx => hnh x (List.mem_cons_of_mem rp hx)),
      procRefprop_href]
    simp [hnh rp (List.mem_cons_self rp l)]

theorem respFold_etag (l : List Elem) : ∀ (st : PState),
    (List.foldl procRefprop st l).etag = List.foldl etagRefprop st.etag l := by
  induction l with
  | nil => intro st; rfl
  | cons rp l ih =>
    intro st
    rw [List.foldl_cons, ih (procRefprop st rp), procRefprop_etag, List.foldl_cons]

theorem respFold_insert (l : List Elem) : ∀ (st : PState),
    (List.foldl procRefprop st l).insert = (st.insert || l.any refpropQual) := by
  induction l with
  | nil => intro st; simp
  | cons rp l ih =>
    intro st
    rw [List.foldl_cons, ih (procRefprop st rp), procRefprop_insert, List.any_cons]
    simp [Bool.or_assoc]

theorem respFold_abook_suffix (l : List Elem) : ∀ (st : PState),
    ∃ t, (List.foldl procRefprop st l).abook = st.abook ++ t := by
  induction l with
  | nil => intro st; exact ⟨[], by simp⟩
  | cons rp l ih =>
    intro st
    obtain ⟨t1, ht1⟩ := procRefprop_abook_suffix st rp
    obtain ⟨t2, ht2⟩ := ih (procRefprop st rp)
    exact ⟨t1 ++ t2, by rw [List.foldl_cons, ht2, ht1, List.append_assoc]⟩

theorem respFold_abook_suffix_keys (l : List Elem) : ∀ (st : PState),
    (∀ rp ∈ l, (rp.tag == davNs ++ "href") = false) →
    ∃ t, (List.foldl procRefprop st l).abook = st.abook ++ t ∧ ∀ x ∈ t, x.1 = st.href := by
  induction l with
  | nil => intro st _; exact ⟨[], by simp, by simp⟩
  | cons rp l ih =>
    intro st hnh
    obtain ⟨t1, ht1, hk1⟩ :=
      procRefprop_abook_suffix_keys st rp (hnh rp (List.mem_cons_self rp l))
    obtain ⟨t2, ht2, hk2⟩ :=
      ih (procRefprop st rp) (fun x hx => hnh x (List.mem_cons_of_mem rp hx))
    refine ⟨t1 ++ t2, ?_, ?_⟩
    · rw [List.foldl_cons, ht2, ht1, List.append_assoc]
    · intro x hx
      rcases List.mem_append.mp hx with hx1 | hx2
      · exact hk1 x hx1
      · rw [hk2 x hx2, procRefprop_href]
        simp [hnh rp (List.mem_cons_self rp l)]

theorem respFold_abook_mono (l : List Elem) (st : PState) :
    st.abook.length ≤ (List.foldl procRefprop st l).abook.length := by
  obtain ⟨t, ht⟩ := respFold_abook_suffix l st
  rw [ht, List.length_append]
  omega

theorem respFold_PInv (l : List Elem) : ∀ (st : PState),
    (∀ rp ∈ l, (rp.tag == davNs ++ "href") = false) →
    PInv st → PInv (List.foldl procRefprop st l) := by
  induction l with
  | nil => intro st _ h; exact h
  | cons rp l ih =>
    intro st hnh h
    exact ih (procRefprop st rp) (fun x hx => hnh x (List.mem_cons_of_mem rp hx))
      (procRefprop_PInv st rp (hnh rp (List.mem_cons_self rp l)) h)

/-- The response-list growth criterion: starting with the flag down, the
dict grows iff some `refprop` qualifies. -/
theorem respFold_abook_grow (l : List Elem) : ∀ (st : PState),
    st.abook.length < (List.foldl procRefprop st l).abook.length
      ↔ ((st.insert = true ∧ ∃ rp ∈ l, rp.children ≠ [])
          ∨ ∃ rp ∈ l, refpropQual rp = true) := by
  induction l with
  | nil => intro st; simp
  | cons rp l ih =>
    intro st
    rw [List.foldl_cons]
    have hmono1 : st.abook.length ≤ (procRefprop st rp).abook.length := by
      obtain ⟨t, ht⟩ := procRefprop_abook_suffix st rp
      rw [ht, List.length_append]
      omega
    have hmono2 := respFold_abook_mono l (procRefprop st rp)
    have hsplit : (st.abook.length
          < (List.foldl procRefprop (procRefprop st rp) l).abook.length)
        ↔ (st.abook.length < (procRefprop st rp).abook.length
            ∨ (procRefprop st rp).abook.length
                < (List.foldl procRefprop (procRefprop st rp) l).abook.length) := by
      omega
    rw [hsplit, procRefprop_abook_grow, ih (procRefprop st rp), procRefprop_insert]
    simp only [List.mem_cons, exists_eq_or_imp, Bool.or_eq_true]
    itauto

/-- The per-response step only appends writes. -/
theorem procResponse_suffix (d : Abook) (r : Elem) :
    ∃ t, procResponse d r = d ++ t := by
  unfold procResponse
  split
  · exact respFold_abook_suffix r.children (PState.mk (some "") (some "") false d)
  · exact ⟨[], by simp⟩

/-- Appending to a list changes it iff the appended part is non-empty. -/
theorem append_ne_self_iff {α : Type} (d t : List α) : d ++ t ≠ d ↔ t ≠ [] := by
  constructor
  · intro h hnil
    exact h (by rw [hnil, List.append_nil])
  · intro ht h
    have hlen := congrArg List.length h
    rw [List.length_append] at hlen
    cases t with
    | nil => exact ht rfl
    | cons x t => rw [List.length_cons] at hlen; omega

/-- One `response` element changes the dict iff it is a `DAV:` `response`
and qualifies. -/
theorem procResponse_ne_iff (d : Abook) (r : Elem) :
    procResponse d r ≠ d ↔ (r.tag = davNs ++ "response" ∧ qualifiesB r = true) := by
  by_cases htag : (r.tag == davNs ++ "response") = true
  · have htag' : r.tag = davNs ++ "response" := by simpa using htag
    have hform : procResponse d r
        = (List.foldl procRefprop (PState.mk (some "") (some "") false d) r.children).abook := by
      unfold procResponse
      rw [if_pos htag]
    obtain ⟨t, ht⟩ := procResponse_suffix d r
    have hne : procResponse d r ≠ d ↔ d.length < (procResponse d r).length := by
      rw [ht, append_ne_self_iff, List.length_append]
      cases t with
      | nil => simp
      | cons x t => simp
    rw [hne, hform]
    have := respFold_abook_grow r.children (PState.mk (some "") (some "") false d)
    simp only at this
    rw [this]
    simp [htag', qualifiesB, List.any_eq_true]
  · have htag' : ¬(r.tag = davNs ++ "response") := by simpa using htag
    have heq : procResponse d r = d := by
      unfold procResponse
      rw [if_neg (by simpa using htag)]
    simp [heq, htag']

/-- The whole-document fold only appends writes. -/
theorem respListFold_suffix (l : List Elem) : ∀ (d : Abook),
    ∃ t, List.foldl procResponse d l = d ++ t := by
  induction l with
  | nil => intro d; exact ⟨[], by simp⟩
  | cons r l ih =>
    intro d
    obtain ⟨t1, ht1⟩ := procResponse_suffix d r
    obtain ⟨t2, ht2⟩ := ih (procResponse d r)
    exact ⟨t1 ++ t2, by rw [List.foldl_cons, ht2, ht1, List.append_assoc]⟩

/-- The whole-document fold changes the dict iff some child is a qualifying
`response`. -/
theorem respListFold_ne_iff (l : List Elem) : ∀ (d : Abook),
    List.foldl procResponse d l ≠ d
      ↔ ∃ r ∈ l, r.tag = davNs ++ "response" ∧ qualifiesB r = true := by
  induction l with
  | nil => intro d; simp
  | cons r l ih =>
    intro d
    rw [List.foldl_cons]
    obtain ⟨t1, ht1⟩ := procResponse_suffix d r
    obtain ⟨t2, ht2⟩ := respListFold_suffix l (procResponse d r)
    have h1 : procResponse d r ≠ d ↔ t1 ≠ [] := by rw [ht1]; exact append_ne_self_iff d t1
    have h2 : List.foldl procResponse (procResponse d r) l ≠ procResponse d r ↔ t2 ≠ [] := by
      rw [ht2]; exact append_ne_self_iff _ t2
    have h3 : List.foldl procResponse (procResponse d r) l ≠ d ↔ (t1 ≠ [] ∨ t2 ≠ []) := by
      rw [ht2, ht1, List.append_assoc, append_ne_self_iff d (t1 ++ t2), Ne,
        List.append_eq_nil]
      tauto
    rw [h3, ← h1, ← h2, procResponse_ne_iff, ih (procResponse d r)]
    simp only [List.mem_cons, exists_eq_or_imp]

/-- C1: a `response` element contributes to the mapping (changes the dict)
iff its nested properties contain a qualifying vCard content-type in the
`DAV:` namespace; consequently the parser's mapping for a whole document is
non-empty iff some `response` child qualifies.  Responses with any other
content type, or none, contribute nothing. -/
theorem claim_c1 :
    (∀ (d : Abook) (r : Elem),
      procResponse d r ≠ d ↔ (r.tag = davNs ++ "response" ∧ qualifiesB r = true))
    ∧ (∀ root : Elem,
      processTree root ≠ []
        ↔ ∃ r ∈ root.children, r.tag = davNs ++ "response" ∧ qualifiesB r = true) := by
  constructor
  · exact procResponse_ne_iff
  · intro root
    exact respListFold_ne_iff root.children []

/-- A key that occurs among the writes has a lookup value. -/
theorem hasKey_dlookup {α β : Type} [BEq α] (d : List (α × β)) (k : α)
    (h : hasKey d k = true) : ∃ v, dlookup d k = some v := by
  rw [hasKey, List.any_eq_true] at h
  obtain ⟨x, hx, hpx⟩ := h
  have hsome : (d.reverse.find? (fun y => y.1 == k)).isSome :=
    List.find?_isSome.mpr ⟨x, List.mem_reverse.mpr hx, hpx⟩
  obtain ⟨y, hy⟩ := Option.isSome_iff_exists.mp hsome
  rw [dlookup, hy]
  exact ⟨y.2, rfl⟩

theorem hasKey_append {α β : Type} [BEq α] (d t : List (α × β)) (k : α) :
    hasKey (d ++ t) k = (hasKey d k || hasKey t k) := by
  simp [hasKey, List.any_append]

/-- A qualifying `response` without an `href` child writes under the default
key `""`. -/
theorem procResponse_hasKey (d : Abook) (r : Elem)
    (hresp : r.tag = davNs ++ "response")
    (hnohref : ∀ rp ∈ r.children, ¬(rp.tag = davNs ++ "href"))
    (hqual : qualifiesB r = true) :
    hasKey (procResponse d r) (some "") = true := by
  have htag : (r.tag == davNs ++ "response") = true := by simpa using hresp
  have hform : procResponse d r
      = (List.foldl procRefprop (PState.mk (some "") (some "") false d) r.children).abook := by
    unfold procResponse
    rw [if_pos htag]
  have hbhref : ∀ rp ∈ r.children, (rp.tag == davNs ++ "href") = false := by
    intro rp hrp
    rw [beq_eq_false_iff_ne]
    exact hnohref rp hrp
  obtain ⟨t, ht, hk⟩ :=
    respFold_abook_suffix_keys r.children (PState.mk (some "") (some "") false d) hbhref
  have hq2 : ∃ rp ∈ r.children, refpropQual rp = true := by
    rw [qualifiesB, List.any_eq_true] at hqual
    exact hqual
  have hgrow :=
    (respFold_abook_grow r.children (PState.mk (some "") (some "") false d)).mpr (Or.inr hq2)
  rw [hform, ht, hasKey_append]
  cases t with
  | nil =>
    rw [ht, List.append_nil] at hgrow
    simp at hgrow
  | cons x t2 =>
    have hx1 : x.1 = some "" := hk x (List.mem_cons_self x t2)
    have hxk : hasKey (x :: t2) (some "") = true := by
      rw [hasKey, List.any_cons, hx1]
      simp
    rw [hxk, Bool.or_true]

/-- C10: a listing document containing a qualifying `response` element that
has no `href` child still yields an entry in the parser's mapping, keyed by
the default href value `""`. -/
theorem claim_c10 (root r : Elem) (hmem : r ∈ root.children)
    (hresp : r.tag = davNs ++ "response")
    (hnohref : ∀ rp ∈ r.children, ¬(rp.tag = davNs ++ "href"))
    (hqual : qualifiesB r = true) :
    ∃ v, dlookup (processTree root) (some "") = some v := by
  apply hasKey_dlookup
  obtain ⟨l1, l2, hsplit⟩ := List.append_of_mem hmem
  rw [processTree, hsplit, List.foldl_append, List.foldl_cons]
  obtain ⟨t2, ht2⟩ := respListFold_suffix l2 (procResponse (List.foldl procResponse [] l1) r)
  rw [ht2, hasKey_append,
    procResponse_hasKey (List.foldl procResponse [] l1) r hresp hnohref hqual,
    Bool.true_or]

/-- Witness for C10: a one-response document, vCard content type, no `href`
child — the mapping has an entry under key `""`. -/
theorem claim_c10_witness :
    ∃ v, dlookup (processTree egRootNoHref) (some "") = some v :=
  claim_c10 egRootNoHref egRespNoHref (List.mem_cons_self _ _) rfl (by decide) (by decide)

/-- C7 amended: for an included resource in standard shape (an `href` child
first, no further `href` children), the marker stored in the mapping is the
final value of the `etag` local: the lxml text of the last nested `getetag`
property when one is present — which is `None` for an empty `getetag`
element — and the empty string when none is present.  The marker is
therefore not always a string: it is `None` exactly when the last `getetag`
element has no text. -/
theorem claim_c7 (d : Abook) (r hrefEl : Elem) (rest : List Elem)
    (hresp : r.tag = davNs ++ "response")
    (hch : r.children = hrefEl :: rest)
    (hhref : hrefEl.tag = davNs ++ "href")
    (hhk : hrefEl.children = [])
    (hrest : ∀ rp ∈ rest, ¬(rp.tag = davNs ++ "href"))
    (hqual : qualifiesB r = true) :
    dlookup (procResponse d r) hrefEl.text = some (lastEtag rest) := by
  have htag : (r.tag == davNs ++ "response") = true := by simpa using hresp
  have hb : (hrefEl.tag == davNs ++ "href") = true := by simpa using hhref
  have hbhref : ∀ rp ∈ rest, (rp.tag == davNs ++ "href") = false := by
    intro rp hrp
    rw [beq_eq_false_iff_ne]
    exact hrest rp hrp
  have hform : procResponse d r
      = (List.foldl procRefprop (PState.mk (some "") (some "") false d) r.children).abook := by
    unfold procResponse
    rw [if_pos htag]
  have hst1 : procRefprop (PState.mk (some "") (some "") false d) hrefEl
      = PState.mk hrefEl.text (some "") false d := by
    unfold procRefprop
    rw [if_pos hb, hhk]
    rfl
  rw [hform, hch, List.foldl_cons, hst1]
  have hqrest : rest.any refpropQual = true := by
    rw [qualifiesB, hch, List.any_cons] at hqual
    have hq0 : refpropQual hrefEl = false := by rw [refpropQual, hhk]; rfl
    rw [hq0] at hqual
    simpa using hqual
  have hFins : (List.foldl procRefprop (PState.mk hrefEl.text (some "") false d) rest).insert
      = true := by
    rw [respFold_insert]
    simp [hqrest]
  have hFhref : (List.foldl procRefprop (PState.mk hrefEl.text (some "") false d) rest).href
      = hrefEl.text := respFold_href rest (PState.mk hrefEl.text (some "") false d) hbhref
  have hFetag : (List.foldl procRefprop (PState.mk hrefEl.text (some "") false d) rest).etag
      = lastEtag rest := by
    rw [respFold_etag]
    rfl
  have hPInv : PInv (PState.mk hrefEl.text (some "") false d) := by
    intro h
    exact absurd h (by simp)
  have hF := respFold_PInv rest (PState.mk hrefEl.text (some "") false d) hbhref hPInv hFins
  rw [hFhref, hFetag] at hF
  exact hF

/-- C7 counterexample: a response whose `getetag` element is empty yields a
marker of `None` (lxml's text of an empty element), not a string — the
mapping value is Python `None`, refuting "always a string and never None". -/
theorem claim_c7_counterexample :
    dlookup (processTree egRootEmptyEtag) (some "/a.vcf") = some none
    ∧ (none : Option String) ≠ some "" := by
  exact ⟨by decide, by decide⟩

/-- Witness for C7 amended: a standard response with `getetag` text `abc`
maps href `/a.vcf` to marker `abc`. -/
theorem claim_c7_witness :
    dlookup (procResponse [] egRespAbc) (some "/a.vcf") = some (some "abc") := by
  have h := claim_c7 [] egRespAbc egHref [egPropstatAbc] rfl rfl rfl rfl
    (by decide) (by decide)
  exact h.trans (by decide)
